/-
Verification of the autoquery extraction-and-reconciliation pipeline.

Shallow embedding of the JavaScript backend sources:
  * self-consistency voting            (backend/self-consistency.js)
  * validator / quality gate           (backend/validator.js)
  * genre registry similarity matching (backend/genre-registry.js)
  * crawl candidate filtering          (backend/crawler.js)
  * two-phase extraction error path    (backend/ollama.js)

JavaScript numbers are modelled by ℚ where only comparisons and exact
rational arithmetic occur, and by ℝ where Math.sqrt is involved (cosine
similarity).  JavaScript record values (strings, booleans, null, arrays
of strings) are modelled by `JVal`; a record is an association list with
the keys unique, as they are for a JavaScript object.  Network calls
(the LLM oracle, the embedding service, JSON.parse of oracle output) are
the external boundary and enter as function parameters.
-/
import Mathlib

namespace AutoQuery

/-! ## JavaScript string primitives

All string manipulation is carried out on `List Char` with structurally
recursive functions (Lean's own `String.map`, `String.trim`, … are
position-based and do not reduce in the kernel), converting at the edges
with `String.toList` and `String.mk`. -/

/-- Whitespace, as both JavaScript's `\s` and `trim` treat the characters
occurring in this pipeline's data. -/
def isWsC (c : Char) : Bool := c.isWhitespace

/-- Drop leading whitespace. -/
def dropLeadWs (l : List Char) : List Char := l.dropWhile isWsC

/-- Drop trailing whitespace. -/
def dropTrailWs : List Char → List Char
  | [] => []
  | c :: rest =>
    match dropTrailWs rest with
    | [] => if isWsC c then [] else [c]
    | r => c :: r

/-- `String.prototype.trim` on the character list. -/
def trimChars (l : List Char) : List Char := dropLeadWs (dropTrailWs l)

/-- `String.prototype.toLowerCase` (ASCII range, which covers the data the
pipeline compares). -/
def jsLower (s : String) : String := String.mk (s.toList.map Char.toLower)

/-- `String.prototype.trim`. -/
def jsTrim (s : String) : String := String.mk (trimChars s.toList)

/-- `value.toLowerCase().trim()` — the normalisation self-consistency.js
applies to string-valued fields before comparing them. -/
def jsLowerTrim (s : String) : String := jsTrim (jsLower s)

/-- `String(boolean)`. -/
def jsBoolStr (b : Bool) : String := if b then "true" else "false"

/-- `String.prototype.includes` (substring containment). -/
def jsIncludes (s sub : String) : Bool := decide (sub.toList <:+: s.toList)

/-- `String.prototype.startsWith`. -/
def jsStarts (s p : String) : Bool := decide (p.toList <+: s.toList)

/-- `String.prototype.endsWith`. -/
def jsEnds (s p : String) : Bool := decide (p.toList <:+ s.toList)

/-! ## JavaScript record values

A JavaScript value as the pipeline's records hold them: a string, a
boolean, `null`, or an array of strings (the extractor's array-valued
fields — keywords, accepted genres, audiences — are arrays of strings).
An absent field (`undefined`) is `Option.none` at the lookup site. -/

inductive JVal where
  | vstr (s : String)
  | vbool (b : Bool)
  | vnull
  | varr (elems : List String)
deriving DecidableEq, Repr

/-- A JavaScript object: association list, keys unique and in insertion
order. -/
abbrev JRec := List (String × JVal)

/-- `Object.keys`. -/
def keysOf (r : JRec) : List String := r.map Prod.fst

/-- `String(array)` — JavaScript joins the elements with `","`. -/
def jsArrStr : List String → String
  | [] => ""
  | [s] => s
  | s :: rest => s ++ "," ++ jsArrStr rest

/-! ## self-consistency.js -/

/-- The string key under which `calculateFieldConsistency` counts one
sample's value of a field: the value is first normalised (strings are
lower-cased and trimmed, booleans stringified, lines 41–47), then used as
the object key `String(val)` (line 53).  `undefined` (absent field)
stringifies to `"undefined"`, `null` to `"null"`, an array to its
comma-join. -/
def normKey : Option JVal → String
  | none => "undefined"
  | some (.vstr s) => jsLowerTrim s
  | some (.vbool b) => jsBoolStr b
  | some .vnull => "null"
  | some (.varr l) => jsArrStr l

/-- One step of the occurrence count (`counts[key] = (counts[key] || 0) + 1`,
line 54); insertion order of keys is kept, as a JavaScript object keeps it
for non-index string keys. -/
def bumpCount : List (String × Nat) → String → List (String × Nat)
  | [], k => [(k, 1)]
  | (k0, c) :: rest, k =>
    if k0 = k then (k0, c + 1) :: rest else (k0, c) :: bumpCount rest k

/-- The `counts` object of `calculateFieldConsistency` (lines 51–55). -/
def countsOf (keys : List String) : List (String × Nat) := keys.foldl bumpCount []

/-- The most-common scan (lines 57–66): strictly-greater update, so the
first key reaching the maximal count wins. -/
def mostCommonOf (counts : List (String × Nat)) : Option String × Nat :=
  counts.foldl (fun acc kv => if acc.2 < kv.2 then (some kv.1, kv.2) else acc) (none, 0)

structure FieldConsistency where
  score : ℚ
  mostCommon : Option String
  count : Nat
  total : Nat
deriving DecidableEq, Repr

/-- `calculateFieldConsistency(results, field)` (self-consistency.js lines
36–78).  The returned `mostCommon` is the winning *key string* (the code
stores the key of the counts object), with `'null'`/`'undefined'` mapped
back to `null` (line 73); `score = maxCount / results.length` (line 69). -/
def calculateFieldConsistency (results : List JRec) (field : String) : FieldConsistency :=
  let keys := results.map fun r => normKey (r.lookup field)
  let mc := mostCommonOf (countsOf keys)
  { score := (mc.2 : ℚ) / (results.length : ℚ)
    mostCommon := if mc.1 = some "null" ∨ mc.1 = some "undefined" then none else mc.1
    count := mc.2
    total := results.length }

/-- Metadata fields excluded from the overall score (line 100). -/
def metadataFields : List String := ["source_url", "timestamp", "error"]

/-- Critical fields (line 96). -/
def criticalFields : List String := ["agent_name", "email", "agency_name"]

/-- The fields `calculateOverallConsistency` analyses: the keys of the
first result minus the metadata fields (lines 90, 98–101). -/
def analyzedFields (r0 : JRec) : List String :=
  (keysOf r0).filter fun f => !(metadataFields.contains f)

/-- `avgScore = totalScore / Object.keys(fieldAnalysis).length` (line 114).
With no analysed field the JavaScript quotient is `0/0 = NaN`, modelled as
`none`; every comparison against `NaN` is false. -/
def overallScoreOpt (results : List JRec) (r0 : JRec) : Option ℚ :=
  if (analyzedFields r0).length = 0 then none
  else some
    (((analyzedFields r0).map fun f => (calculateFieldConsistency results f).score).sum
      / ((analyzedFields r0).length : ℚ))

/-- `criticalFieldsInconsistent` (lines 108–111): analysed fields that are
critical and agree below 0.67. -/
def criticalInconsistentOf (results : List JRec) (r0 : JRec) : List String :=
  (analyzedFields r0).filter fun f =>
    criticalFields.contains f && decide ((calculateFieldConsistency results f).score < 0.67)

structure OverallConsistency where
  score : Option ℚ
  criticalFieldsInconsistent : List String
  needsReview : Bool

/-- `calculateOverallConsistency(results)` (lines 85–122).
`needsReview = avgScore < 0.7 || criticalFieldsInconsistent.length > 0`
(line 120); a `NaN` average (no analysed field) compares false. -/
def calculateOverallConsistency (results : List JRec) : OverallConsistency :=
  match results with
  | [] => ⟨some 0, [], true⟩
  | r0 :: _ =>
    ⟨overallScoreOpt results r0,
     criticalInconsistentOf results r0,
     (match overallScoreOpt results r0 with
      | some a => decide (a < 0.7)
      | none => false)
       || !(criticalInconsistentOf results r0).isEmpty⟩

/-- The string fields whose original casing `mergeResultsByVoting`
restores (line 153). -/
def mergeFieldNames : List String := ["agent_name", "agency_name", "email", "country"]

/-- The merged value of one field (lines 141–164): the consensus key
string, converted back to boolean/null when it spells one (lines 147–150),
then, for the four name-like fields, replaced by the first sample's
as-produced casing whose normalised value matches (lines 152–162). -/
def mergeVal (results : List JRec) (field : String) : JVal :=
  let c := calculateFieldConsistency results field
  let v0 : JVal :=
    match c.mostCommon with
    | none => .vnull
    | some k =>
      if k = "true" then .vbool true
      else if k = "false" then .vbool false
      else if k = "null" then .vnull
      else .vstr k
  if mergeFieldNames.contains field then
    match v0 with
    | .vstr k =>
      match results.find? (fun r =>
        match r.lookup field with
        | some (.vstr s) => jsLowerTrim s == k
        | _ => false) with
      | some r =>
        match r.lookup field with
        | some (.vstr s) => if s ≠ "" then .vstr s else v0
        | _ => v0
      | none => v0
    | _ => v0
  else v0

/-- `mergeResultsByVoting(results)` (lines 129–168): `null` for no sample,
the sample itself for one, else a field-wise consensus record over the
keys of the first sample. -/
def mergeResultsByVoting (results : List JRec) : Option JRec :=
  match results with
  | [] => none
  | [r] => some r
  | r0 :: _ :: _ => some ((keysOf r0).map fun f => (f, mergeVal results f))

/-! ## Lemmas about the self-consistency engine -/

lemma crit_not_meta : ∀ f ∈ criticalFields, metadataFields.contains f = false := by decide

lemma mem_analyzedFields {f : String} {r0 : JRec} :
    f ∈ analyzedFields r0 ↔ f ∈ keysOf r0 ∧ metadataFields.contains f = false := by
  simp [analyzedFields, List.mem_filter]

lemma criticalInconsistent_ne_nil_iff (results : List JRec) (r0 : JRec) :
    criticalInconsistentOf results r0 ≠ [] ↔
      ∃ f ∈ criticalFields, f ∈ keysOf r0 ∧
        (calculateFieldConsistency results f).score < 0.67 := by
  constructor
  · intro h
    obtain ⟨f, hf⟩ : ∃ f, f ∈ criticalInconsistentOf results r0 := by
      cases hc : criticalInconsistentOf results r0 with
      | nil => exact absurd hc h
      | cons x xs => exact ⟨x, by simp [hc]⟩
    have hmem := (List.mem_filter.mp hf).1
    have hpred := (List.mem_filter.mp hf).2
    simp only [Bool.and_eq_true, decide_eq_true_eq, List.elem_iff] at hpred
    exact ⟨f, hpred.1, (mem_analyzedFields.mp hmem).1, hpred.2⟩
  · rintro ⟨f, hcrit, hkey, hscore⟩
    have hmem : f ∈ criticalInconsistentOf results r0 := by
      refine List.mem_filter.mpr ⟨mem_analyzedFields.mpr ⟨hkey, crit_not_meta f hcrit⟩, ?_⟩
      simp [List.elem_iff, hcrit, hscore]
    intro hnil
    rw [hnil] at hmem
    simp at hmem

/-- C3 — amended.  `needsReview` is set exactly when some critical field
present in the samples has agreement score strictly below **0.67** (the
constant at self-consistency.js line 109; `2/3 < 0.67`, so a field at
exactly two-thirds agreement *does* trigger the flag), or the overall
average (mean of per-field scores excluding `source_url`, `timestamp`,
`error`; `NaN` when no field remains) is strictly below 0.7. -/
theorem needsReview_iff (results : List JRec) (r0 : JRec) (rest : List JRec)
    (hres : results = r0 :: rest) :
    (calculateOverallConsistency results).needsReview = true ↔
      ((∃ f ∈ criticalFields, f ∈ keysOf r0 ∧
          (calculateFieldConsistency results f).score < 0.67) ∨
        (∃ a, (calculateOverallConsistency results).score = some a ∧ a < 0.7)) := by
  subst hres
  have hscore : (calculateOverallConsistency (r0 :: rest)).score =
      overallScoreOpt (r0 :: rest) r0 := rfl
  have hneeds : (calculateOverallConsistency (r0 :: rest)).needsReview =
      ((match overallScoreOpt (r0 :: rest) r0 with
        | some a => decide (a < 0.7)
        | none => false)
        || !(criticalInconsistentOf (r0 :: rest) r0).isEmpty) := rfl
  rw [hneeds, hscore, Bool.or_eq_true]
  constructor
  · rintro (h | h)
    · right
      revert h
      cases hov : overallScoreOpt (r0 :: rest) r0 with
      | none => simp
      | some a =>
        simp only [decide_eq_true_eq]
        exact fun h => ⟨a, rfl, h⟩
    · left
      exact (criticalInconsistent_ne_nil_iff _ _).mp (by simpa [List.isEmpty_iff] using h)
  · rintro (h | ⟨a, ha, hlt⟩)
    · right
      have := (criticalInconsistent_ne_nil_iff (r0 :: rest) r0).mpr h
      simpa [List.isEmpty_iff] using this
    · left
      rw [ha]
      simpa using hlt

/-- Witness for `needsReview_iff` at a concrete single-sample input. -/
def recW : JRec := [("agent_name", .vstr "Jane Doe"), ("email", .vstr "j@d.com")]

theorem needsReview_iff_witness :
    (calculateOverallConsistency [recW]).needsReview = true ↔
      ((∃ f ∈ criticalFields, f ∈ keysOf recW ∧
          (calculateFieldConsistency [recW] f).score < 0.67) ∨
        (∃ a, (calculateOverallConsistency [recW]).score = some a ∧ a < 0.7)) :=
  needsReview_iff [recW] recW [] rfl

/-! Counterexample data for the claimed `2/3` critical threshold: three
samples agreeing 2-of-3 on `agent_name` and 3-of-3 on everything else. -/

def recCexA : JRec :=
  [("agent_name", .vstr "Alice"), ("email", .vstr "a@b.c"), ("agency_name", .vstr "Acme")]

def recCexB : JRec :=
  [("agent_name", .vstr "Bob"), ("email", .vstr "a@b.c"), ("agency_name", .vstr "Acme")]

def samplesCex : List JRec := [recCexA, recCexA, recCexB]

lemma samplesCex_name_score :
    (calculateFieldConsistency samplesCex "agent_name").score = 2 / 3 := by
  have h : mostCommonOf (countsOf (samplesCex.map fun r =>
      normKey (r.lookup "agent_name"))) = (some "alice", 2) := by decide
  simp only [calculateFieldConsistency, h]
  norm_num [samplesCex]

lemma samplesCex_email_score :
    (calculateFieldConsistency samplesCex "email").score = 1 := by
  have h : mostCommonOf (countsOf (samplesCex.map fun r =>
      normKey (r.lookup "email"))) = (some "a@b.c", 3) := by decide
  simp only [calculateFieldConsistency, h]
  norm_num [samplesCex]

lemma samplesCex_agency_score :
    (calculateFieldConsistency samplesCex "agency_name").score = 1 := by
  have h : mostCommonOf (countsOf (samplesCex.map fun r =>
      normKey (r.lookup "agency_name"))) = (some "acme", 3) := by decide
  simp only [calculateFieldConsistency, h]
  norm_num [samplesCex]

lemma samplesCex_analyzed :
    analyzedFields recCexA = ["agent_name", "email", "agency_name"] := by decide

lemma samplesCex_crit :
    criticalInconsistentOf samplesCex recCexA = ["agent_name"] := by
  simp only [criticalInconsistentOf, samplesCex_analyzed, List.filter,
    samplesCex_name_score, samplesCex_email_score, samplesCex_agency_score]
  norm_num [criticalFields]

/-- C3 — counterexample to the claimed strict-`2/3` critical threshold: on
three samples that agree 2-of-3 on `agent_name` (score exactly `2/3`) and
fully on `email` and `agency_name` (overall `8/9 ≥ 0.7`), the code sets
`needsReview`, although no critical score is below `2/3` and the overall
score is not below `0.7` — because the code's threshold is `0.67 > 2/3`. -/
theorem needsReview_two_thirds_cex :
    (calculateOverallConsistency samplesCex).needsReview = true ∧
      (∀ f ∈ criticalFields, ¬((calculateFieldConsistency samplesCex f).score < 2 / 3)) ∧
      (∃ a, (calculateOverallConsistency samplesCex).score = some a ∧ ¬(a < 0.7)) := by
  refine ⟨?_, ?_, ?_⟩
  · show ((match overallScoreOpt samplesCex recCexA with
        | some a => decide (a < 0.7)
        | none => false)
        || !(criticalInconsistentOf samplesCex recCexA).isEmpty) = true
    rw [samplesCex_crit]
    simp
  · intro f hf
    simp only [criticalFields, List.mem_cons, List.not_mem_nil, or_false] at hf
    rcases hf with rfl | rfl | rfl
    · rw [samplesCex_name_score]; norm_num
    · rw [samplesCex_email_score]; norm_num
    · rw [samplesCex_agency_score]; norm_num
  · refine ⟨8 / 9, ?_, by norm_num⟩
    show overallScoreOpt samplesCex recCexA = some (8 / 9)
    simp only [overallScoreOpt, samplesCex_analyzed, List.map,
      samplesCex_name_score, samplesCex_email_score, samplesCex_agency_score]
    norm_num

/-! ## Self-consistency on N identical samples -/

lemma foldl_bump_replicate (k : String) (i n : Nat) :
    List.foldl bumpCount [(k, i)] (List.replicate n k) = [(k, i + n)] := by
  induction n generalizing i with
  | zero => simp
  | succ m ih =>
    rw [List.replicate_succ, List.foldl_cons]
    have hb : bumpCount [(k, i)] k = [(k, i + 1)] := by simp [bumpCount]
    have harith : i + 1 + m = i + (m + 1) := by omega
    rw [hb, ih, harith]

lemma countsOf_replicate (k : String) (n : Nat) (h : 1 ≤ n) :
    countsOf (List.replicate n k) = [(k, n)] := by
  cases n with
  | zero => omega
  | succ m =>
    rw [countsOf, List.replicate_succ, List.foldl_cons]
    have hb : bumpCount [] k = [(k, 1)] := by simp [bumpCount]
    have harith : 1 + m = m + 1 := by omega
    rw [hb, foldl_bump_replicate, harith]

lemma mostCommonOf_single (k : String) (c : Nat) (h : 0 < c) :
    mostCommonOf [(k, c)] = (some k, c) := by
  simp [mostCommonOf, h]

/-- On `n ≥ 1` identical samples every field agrees `n`-of-`n`. -/
lemma fieldConsistency_replicate (r : JRec) (f : String) (n : Nat) (h : 1 ≤ n) :
    calculateFieldConsistency (List.replicate n r) f =
      ⟨1,
       if normKey (r.lookup f) = "null" ∨ normKey (r.lookup f) = "undefined" then none
       else some (normKey (r.lookup f)),
       n, n⟩ := by
  have hn : (n : ℚ) ≠ 0 := by exact_mod_cast Nat.one_le_iff_ne_zero.mp h
  have hmc := mostCommonOf_single (normKey (r.lookup f)) n (by omega)
  simp only [calculateFieldConsistency, List.map_replicate,
    countsOf_replicate _ _ h, hmc, List.length_replicate]
  simp only [FieldConsistency.mk.injEq, Option.some.injEq]
  refine ⟨div_self hn, ?_⟩
  trivial

lemma lookup_of_mem_nodup {r : JRec} {f : String} {v : JVal}
    (hnd : (keysOf r).Nodup) (hmem : (f, v) ∈ r) : r.lookup f = some v := by
  induction r with
  | nil => simp at hmem
  | cons p rest ih =>
    obtain ⟨k, w⟩ := p
    rcases List.mem_cons.mp hmem with h | h
    · obtain ⟨rfl, rfl⟩ := Prod.mk.injEq .. ▸ (by exact Prod.mk.inj (h.symm) : k = f ∧ w = v)
      simp [List.lookup]
    · have hk : f ≠ k := by
        rintro rfl
        have : f ∈ keysOf rest := List.mem_map.mpr ⟨(f, v), h, rfl⟩
        exact (List.nodup_cons.mp hnd).1 this
      have := ih (List.nodup_cons.mp hnd).2 h
      simpa [List.lookup, beq_false_of_ne hk] using this

lemma lookup_map_of_mem {keys : List String} {f : String} (g : String → JVal)
    (hmem : f ∈ keys) :
    (keys.map fun k => (k, g k)).lookup f = some (g f) := by
  induction keys with
  | nil => simp at hmem
  | cons k rest ih =>
    rcases List.mem_cons.mp hmem with rfl | h
    · simp [List.lookup]
    · by_cases hk : f = k
      · subst hk; simp [List.lookup]
      · simpa [List.lookup, beq_false_of_ne hk] using ih h

lemma find?_replicate (r : JRec) (p : JRec → Bool) (n : Nat) (h : 1 ≤ n) :
    (List.replicate n r).find? p = if p r then some r else none := by
  induction n with
  | zero => omega
  | succ m ih =>
    rw [List.replicate_succ, List.find?_cons]
    cases hp : p r with
    | true => simp
    | false =>
      simp only [Bool.false_eq_true, if_false]
      cases m with
      | zero => simp
      | succ m2 => simp [hp] at ih ⊢

/-- The four key-strings whose consensus value the merge converts or
filters specially (`'true'`, `'false'`, `'null'`, plus `'undefined'` from
the most-common filter). -/
def specialKeys : List String := ["true", "false", "null", "undefined"]

lemma mergeVal_replicate_bool (r : JRec) (f : String) (b : Bool) (n : Nat) (hn : 1 ≤ n)
    (hv : r.lookup f = some (.vbool b)) :
    mergeVal (List.replicate n r) f = .vbool b := by
  have hc := fieldConsistency_replicate r f n hn
  rw [hv] at hc
  cases b <;>
    simp [mergeVal, hc, normKey, jsBoolStr]

lemma mergeVal_replicate_null (r : JRec) (f : String) (n : Nat) (hn : 1 ≤ n)
    (hv : r.lookup f = some .vnull) :
    mergeVal (List.replicate n r) f = .vnull := by
  have hc := fieldConsistency_replicate r f n hn
  rw [hv] at hc
  simp [mergeVal, hc, normKey]

lemma mergeVal_replicate_str (r : JRec) (f : String) (s : String) (n : Nat) (hn : 1 ≤ n)
    (hv : r.lookup f = some (.vstr s)) (hk : jsLowerTrim s ∉ specialKeys) :
    mergeVal (List.replicate n r) f =
      (if f ∈ mergeFieldNames ∧ s ≠ "" then .vstr s else .vstr (jsLowerTrim s)) := by
  have hc := fieldConsistency_replicate r f n hn
  rw [hv] at hc
  simp only [specialKeys, List.mem_cons, List.not_mem_nil, or_false, not_or] at hk
  obtain ⟨hk1, hk2, hk3, hk4⟩ := hk
  have hfind := find?_replicate r
    (fun r' => match r'.lookup f with
      | some (.vstr s') => jsLowerTrim s' == jsLowerTrim s
      | _ => false) n hn
  simp only [hv, beq_self_eq_true, if_true] at hfind
  by_cases hmf : f ∈ mergeFieldNames
  · by_cases hs : s = ""
    · subst hs
      simp [mergeVal, hc, normKey, hk1, hk2, hk3, hk4, hmf, hfind, hv]
    · simp [mergeVal, hc, normKey, hk1, hk2, hk3, hk4, hmf, hfind, hv, hs]
  · simp [mergeVal, hc, normKey, hk1, hk2, hk3, hk4, hmf]

lemma mergeVal_replicate_arr (r : JRec) (f : String) (l : List String) (n : Nat) (hn : 1 ≤ n)
    (hv : r.lookup f = some (.varr l)) (hk : jsArrStr l ∉ specialKeys) :
    mergeVal (List.replicate n r) f = .vstr (jsArrStr l) := by
  have hc := fieldConsistency_replicate r f n hn
  rw [hv] at hc
  simp only [specialKeys, List.mem_cons, List.not_mem_nil, or_false, not_or] at hk
  obtain ⟨hk1, hk2, hk3, hk4⟩ := hk
  have hfind := find?_replicate r
    (fun r' => match r'.lookup f with
      | some (.vstr s') => jsLowerTrim s' == jsArrStr l
      | _ => false) n hn
  simp only [hv, Bool.false_eq_true, if_false] at hfind
  by_cases hmf : f ∈ mergeFieldNames
  · simp [mergeVal, hc, normKey, hk1, hk2, hk3, hk4, hmf, hfind]
  · simp [mergeVal, hc, normKey, hk1, hk2, hk3, hk4, hmf]

/-- C4 — amended.  On `N ≥ 1` identical copies of a sample `r` the
self-consistency analysis reports overall score 1.0 and does not flag the
record; with `N = 1` the merge returns `r` itself.  With `N ≥ 2`,
however, the merge rebuilds every field from the *consensus key string*:
boolean and null fields and the four casing-restored string fields
(`agent_name`, `agency_name`, `email`, `country`, when non-empty and not
spelling a special key) survive unchanged, but any other string field is
replaced by its lower-cased trimmed form and any array-valued field by
its comma-joined string — so the merged record is **not** equal to `r` on
every non-metadata field, contrary to the claim. -/
theorem selfConsistency_identical_samples (r : JRec) (n : Nat) (hn : 1 ≤ n)
    (hnd : (keysOf r).Nodup) (hfs : analyzedFields r ≠ []) :
    (calculateOverallConsistency (List.replicate n r)).score = some 1 ∧
      (calculateOverallConsistency (List.replicate n r)).needsReview = false ∧
      (n = 1 → mergeResultsByVoting (List.replicate n r) = some r) ∧
      (2 ≤ n → ∃ m, mergeResultsByVoting (List.replicate n r) = some m ∧
        (∀ f b, (f, JVal.vbool b) ∈ r → m.lookup f = some (JVal.vbool b)) ∧
        (∀ f, (f, JVal.vnull) ∈ r → m.lookup f = some JVal.vnull) ∧
        (∀ f s, (f, JVal.vstr s) ∈ r → f ∈ mergeFieldNames → s ≠ "" →
          jsLowerTrim s ∉ specialKeys → m.lookup f = some (JVal.vstr s)) ∧
        (∀ f s, (f, JVal.vstr s) ∈ r → f ∉ mergeFieldNames →
          jsLowerTrim s ∉ specialKeys → m.lookup f = some (JVal.vstr (jsLowerTrim s))) ∧
        (∀ f l, (f, JVal.varr l) ∈ r → jsArrStr l ∉ specialKeys →
          m.lookup f = some (JVal.vstr (jsArrStr l)))) := by
  obtain ⟨m', rfl⟩ : ∃ m', n = m' + 1 := ⟨n - 1, by omega⟩
  have hlen : (analyzedFields r).length ≠ 0 := fun h => hfs (List.length_eq_zero.mp h)
  have hscore1 : ∀ f, (calculateFieldConsistency (List.replicate (m' + 1) r) f).score = 1 := by
    intro f
    rw [fieldConsistency_replicate r f _ hn]
  have hov : overallScoreOpt (List.replicate (m' + 1) r) r = some 1 := by
    rw [overallScoreOpt, if_neg hlen]
    congr 1
    rw [List.map_congr_left fun f _ => hscore1 f]
    rw [show ((analyzedFields r).map fun _ => (1 : ℚ)) =
        List.replicate (analyzedFields r).length 1 from List.map_const _ _, List.sum_replicate]
    simp only [nsmul_eq_mul, mul_one]
    exact div_self (by exact_mod_cast hlen)
  have hcrit : criticalInconsistentOf (List.replicate (m' + 1) r) r = [] := by
    rw [criticalInconsistentOf]
    apply List.filter_eq_nil_iff.mpr
    intro f _
    simp only [Bool.and_eq_true, not_and, decide_eq_true_eq]
    intro _
    rw [hscore1 f]
    norm_num
  have hrepl : List.replicate (m' + 1) r = r :: List.replicate m' r := List.replicate_succ ..
  have hscoreC : (calculateOverallConsistency (List.replicate (m' + 1) r)).score =
      overallScoreOpt (List.replicate (m' + 1) r) r := by
    rw [hrepl]; rfl
  have hneedsC : (calculateOverallConsistency (List.replicate (m' + 1) r)).needsReview =
      ((match overallScoreOpt (List.replicate (m' + 1) r) r with
        | some a => decide (a < 0.7)
        | none => false)
        || !(criticalInconsistentOf (List.replicate (m' + 1) r) r).isEmpty) := by
    rw [hrepl]
    rfl
  refine ⟨?_, ?_, ?_, ?_⟩
  · rw [hscoreC, hov]
  · rw [hneedsC, hov, hcrit]
    norm_num
  · rintro h
    have hm0 : m' = 0 := by omega
    subst hm0
    rfl
  · intro h2
    obtain ⟨m2, rfl⟩ : ∃ m2, m' = m2 + 1 := ⟨m' - 1, by omega⟩
    refine ⟨(keysOf r).map fun f => (f, mergeVal (List.replicate (m2 + 1 + 1) r) f), ?_, ?_, ?_, ?_, ?_, ?_⟩
    · rw [show List.replicate (m2 + 1 + 1) r = r :: r :: List.replicate m2 r by
        rw [List.replicate_succ, List.replicate_succ]]
      rfl
    · intro f b hmem
      have hmemk : f ∈ keysOf r := List.mem_map.mpr ⟨(f, .vbool b), hmem, rfl⟩
      rw [lookup_map_of_mem (fun f => mergeVal (List.replicate (m2 + 1 + 1) r) f) hmemk,
        mergeVal_replicate_bool r f b _ hn (lookup_of_mem_nodup hnd hmem)]
    · intro f hmem
      have hmemk : f ∈ keysOf r := List.mem_map.mpr ⟨(f, .vnull), hmem, rfl⟩
      rw [lookup_map_of_mem (fun f => mergeVal (List.replicate (m2 + 1 + 1) r) f) hmemk,
        mergeVal_replicate_null r f _ hn (lookup_of_mem_nodup hnd hmem)]
    · intro f s hmem hmf hs hk
      have hmemk : f ∈ keysOf r := List.mem_map.mpr ⟨(f, .vstr s), hmem, rfl⟩
      rw [lookup_map_of_mem (fun f => mergeVal (List.replicate (m2 + 1 + 1) r) f) hmemk,
        mergeVal_replicate_str r f s _ hn (lookup_of_mem_nodup hnd hmem) hk,
        if_pos ⟨hmf, hs⟩]
    · intro f s hmem hmf hk
      have hmemk : f ∈ keysOf r := List.mem_map.mpr ⟨(f, .vstr s), hmem, rfl⟩
      rw [lookup_map_of_mem (fun f => mergeVal (List.replicate (m2 + 1 + 1) r) f) hmemk,
        mergeVal_replicate_str r f s _ hn (lookup_of_mem_nodup hnd hmem) hk,
        if_neg (by simp [hmf])]
    · intro f l hmem hk
      have hmemk : f ∈ keysOf r := List.mem_map.mpr ⟨(f, .varr l), hmem, rfl⟩
      rw [lookup_map_of_mem (fun f => mergeVal (List.replicate (m2 + 1 + 1) r) f) hmemk,
        mergeVal_replicate_arr r f l _ hn (lookup_of_mem_nodup hnd hmem) hk]

/-- Witness for `selfConsistency_identical_samples` on two identical
copies of a concrete record. -/
theorem selfConsistency_identical_witness :
    (calculateOverallConsistency (List.replicate 2 recW)).score = some 1 ∧
      (calculateOverallConsistency (List.replicate 2 recW)).needsReview = false :=
  ⟨(selfConsistency_identical_samples recW 2 (by decide) (by decide) (by decide)).1,
   (selfConsistency_identical_samples recW 2 (by decide) (by decide) (by decide)).2.1⟩

/-- Record with an array-valued field, for the C4 counterexample. -/
def recArr : JRec := [("agent_name", .vstr "Jane"), ("specific_keywords", .varr ["A", "B"])]

/-- C4 — counterexample.  Merging two identical copies of a record with
the array-valued field `specific_keywords = ["A", "B"]` yields the
*string* `"A,B"` for that field (the consensus key), not the array: the
merged record is not equal to the sample on this non-metadata field. -/
theorem mergeIdentical_array_cex :
    (mergeResultsByVoting (List.replicate 2 recArr)).map (fun m => m.lookup "specific_keywords")
        = some (some (.vstr "A,B")) ∧
      recArr.lookup "specific_keywords" = some (.varr ["A", "B"]) ∧
      JVal.vstr "A,B" ≠ JVal.varr ["A", "B"] := by
  refine ⟨by decide, by decide, by decide⟩

/-! ## validator.js -/

/-- One step of run-collapsing for `replace(/\s+/g, ' ')`: a maximal run
of whitespace becomes a single space. -/
def collapseGo (prevWs : Bool) : List Char → List Char
  | [] => []
  | c :: rest =>
    if isWsC c then
      if prevWs then collapseGo true rest else ' ' :: collapseGo true rest
    else c :: collapseGo false rest

/-- `replace(/\s+/g, ' ')`. -/
def collapseWsChars (l : List Char) : List Char := collapseGo false l

/-- `String.prototype.split(c)` for a single-character separator. -/
def splitOnChar (c : Char) : List Char → List (List Char)
  | [] => [[]]
  | x :: rest =>
    if x = c then [] :: splitOnChar c rest
    else
      match splitOnChar c rest with
      | p :: ps => (x :: p) :: ps
      | [] => [[x]]

/-- An agent record as validator.js reads it: the fields its functions
access, with `""` for an absent string field (both are falsy there) and
the stored confidence score. -/
structure Agent where
  agent_name : String
  email : String
  website : String
  agency_name : String
  confidence_score : ℚ
deriving DecidableEq, Repr

/-- `normalizeName(name)` (validator.js lines 59–77): trim, turn a
two-part `"Last, First"` into `"First Last"`, collapse whitespace runs. -/
def normalizeName (name : String) : String :=
  let n1 := trimChars name.toList
  let n2 :=
    if n1.contains ',' then
      match (splitOnChar ',' n1).map trimChars with
      | [p0, p1] => p1 ++ [' '] ++ p0
      | _ => n1
    else n1
  String.mk (collapseWsChars n2)

/-- A character the email regex accepts in any part: `[^\s@]`. -/
def cleanEmailChar (c : Char) : Bool := !(isWsC c) && c != '@'

/-- The test of `/^[^\s@]+@[^\s@]+\.[^\s@]+$/` (validator.js line 14):
exactly one `@`, no whitespace, a non-empty local part, and after the `@`
a dot that is neither the first nor the last character. -/
def emailRegexOk (email : String) : Bool :=
  match splitOnChar '@' email.toList with
  | [localPart, domain] =>
    !localPart.isEmpty && localPart.all cleanEmailChar && domain.all cleanEmailChar &&
      ((domain.drop 1).dropLast.contains '.')
  | _ => false

/-- The blacklist of generic mailbox names (validator.js lines 18–28). -/
def genericMailboxes : List String :=
  ["info@", "kontakt@", "contact@", "office@", "admin@", "hello@", "mail@",
   "support@", "service@"]

/-- `isValidEmail(email)` (validator.js lines 10–36). -/
def isValidEmail (email : String) : Bool :=
  if email == "" then false
  else if !(emailRegexOk email) then false
  else if genericMailboxes.any (fun p => jsStarts (jsLower email) p) then false
  else true

/-- `isDuplicate(agent1, agent2)` (validator.js lines 85–116): normalised
names equal, or e-mails equal, or one normalised name contains the other
and the agencies match — each tested only when both sides are
non-empty. -/
def isDuplicate (a1 a2 : Agent) : Bool :=
  let name1 := jsLower (normalizeName a1.agent_name)
  let name2 := jsLower (normalizeName a2.agent_name)
  let email1 := jsTrim (jsLower a1.email)
  let email2 := jsTrim (jsLower a2.email)
  let agency1 := jsLower a1.agency_name
  let agency2 := jsLower a2.agency_name
  (name1 != "" && name2 != "" && name1 == name2) ||
    (email1 != "" && email2 != "" && email1 == email2) ||
    (name1 != "" && name2 != "" && (jsIncludes name1 name2 || jsIncludes name2 name1) &&
      (agency1 != "" && agency2 != "" && agency1 == agency2))

/-- `removeDuplicates(agents)` (validator.js lines 123–136): keep an
agent only when no already-kept agent is its duplicate — first seen
wins. -/
def removeDuplicates (agents : List Agent) : List Agent :=
  agents.foldl
    (fun unique agent =>
      if unique.any (fun ex => isDuplicate ex agent) then unique else unique ++ [agent])
    []

/-- `meetsQualityStandards(agent)` (validator.js lines 253–272). -/
def meetsQualityStandards (a : Agent) : Bool :=
  if a.agent_name == "" || a.agent_name == "Unknown" || a.agent_name == "Error" then false
  else if a.email == "" && a.website == "" && a.agency_name == "" then false
  else if a.confidence_score < 20 then false
  else true

/-! ## C5: the quality gate -/

lemma isValidEmail_ne_empty {email : String} (h : isValidEmail email = true) : email ≠ "" := by
  rintro rfl
  simp [isValidEmail] at h

/-- C5 — confirmed.  The quality gate rejects a record whose name is
absent or a sentinel, rejects a record with no e-mail, website or agency,
rejects a record whose confidence score is below 20, and accepts a record
with a non-sentinel name, a valid contact e-mail and score at least 20.
As a total Lean function it can raise nothing. -/
theorem meetsQualityStandards_spec (a : Agent) :
    ((a.agent_name = "" ∨ a.agent_name = "Unknown" ∨ a.agent_name = "Error") →
        meetsQualityStandards a = false) ∧
      ((a.email = "" ∧ a.website = "" ∧ a.agency_name = "") →
        meetsQualityStandards a = false) ∧
      (a.confidence_score < 20 → meetsQualityStandards a = false) ∧
      ((a.agent_name ≠ "" ∧ a.agent_name ≠ "Unknown" ∧ a.agent_name ≠ "Error" ∧
          isValidEmail a.email = true ∧ 20 ≤ a.confidence_score) →
        meetsQualityStandards a = true) := by
  refine ⟨?_, ?_, ?_, ?_⟩
  · rintro (h | h | h) <;> simp [meetsQualityStandards, h]
  · rintro ⟨h1, h2, h3⟩
    simp [meetsQualityStandards, h1, h2, h3]
  · intro h
    simp [meetsQualityStandards, h]
  · rintro ⟨h1, h2, h3, hv, hs⟩
    have he := isValidEmail_ne_empty hv
    simp [meetsQualityStandards, h1, h2, h3, he, not_lt.mpr hs]

/-- Witness for `meetsQualityStandards_spec`: a concrete accepted agent. -/
def agentW : Agent :=
  ⟨"Jane Doe", "jane@doe.com", "", "", 50⟩

theorem meetsQualityStandards_witness :
    isValidEmail agentW.email = true ∧ meetsQualityStandards agentW = true :=
  ⟨by decide,
   (meetsQualityStandards_spec agentW).2.2.2
     ⟨by decide, by decide, by decide, by decide, by norm_num [agentW]⟩⟩

/-! ## C10: the duplicate test is symmetric -/

/-- C10 — confirmed.  `isDuplicate` is symmetric, and for a pair of
mutual duplicates `removeDuplicates` keeps whichever comes first in the
input. -/
theorem isDuplicate_comm (a b : Agent) :
    isDuplicate a b = isDuplicate b a ∧
      (isDuplicate a b = true →
        removeDuplicates [a, b] = [a] ∧ removeDuplicates [b, a] = [b]) := by
  have hsymm : isDuplicate a b = isDuplicate b a := by
    rw [Bool.eq_iff_iff]
    simp only [isDuplicate, Bool.or_eq_true, Bool.and_eq_true, beq_iff_eq, bne_iff_ne, ne_eq]
    constructor <;>
      rintro ((⟨⟨h1, h2⟩, h3⟩ | ⟨⟨h1, h2⟩, h3⟩) | ⟨⟨⟨h1, h2⟩, h3⟩, ⟨h4, h5⟩, h6⟩) <;>
      first
        | exact Or.inl (Or.inl ⟨⟨h2, h1⟩, h3.symm⟩)
        | exact Or.inl (Or.inr ⟨⟨h2, h1⟩, h3.symm⟩)
        | exact Or.inr ⟨⟨⟨h2, h1⟩, h3.symm⟩, ⟨h5, h4⟩, h6.symm⟩
  refine ⟨hsymm, fun hdup => ⟨?_, ?_⟩⟩
  · simp [removeDuplicates, hdup]
  · simp [removeDuplicates, hsymm ▸ hdup]

/-- Witness for `isDuplicate_comm`: two concrete mutual duplicates
(same name up to case). -/
def agentDupA : Agent := ⟨"Jane Doe", "", "", "", 0⟩

def agentDupB : Agent := ⟨"jane doe", "", "", "", 0⟩

theorem isDuplicate_comm_witness :
    isDuplicate agentDupA agentDupB = isDuplicate agentDupB agentDupA ∧
      removeDuplicates [agentDupA, agentDupB] = [agentDupA] :=
  ⟨(isDuplicate_comm agentDupA agentDupB).1,
   ((isDuplicate_comm agentDupA agentDupB).2 (by decide)).1⟩


/-! ## genre-registry.js: cosine similarity -/

/-- The accumulators of the `cosineSimilarity` loop: the loop over the
index range computes `dot`, `magA`, `magB`; with vectors of equal length
(the only use the pipeline makes) they are the pairwise products summed,
modelled by this recursion. -/
def dotl : List ℝ → List ℝ → ℝ
  | [], _ => 0
  | _ :: _, [] => 0
  | a :: as, b :: bs => a * b + dotl as bs

/-- `cosineSimilarity(a, b)` (genre-registry.js lines 53–62):
`dot / (√magA * √magB)`, defined as 0 when the denominator is 0. -/
noncomputable def cosineSimilarity (a b : List ℝ) : ℝ :=
  if Real.sqrt (dotl a a) * Real.sqrt (dotl b b) = 0 then 0
  else dotl a b / (Real.sqrt (dotl a a) * Real.sqrt (dotl b b))

lemma dotl_self_nonneg (a : List ℝ) : 0 ≤ dotl a a := by
  induction a with
  | nil => simp [dotl]
  | cons x xs ih => simp only [dotl]; nlinarith [sq_nonneg x]

lemma dotl_comm (a b : List ℝ) : dotl a b = dotl b a := by
  induction a generalizing b with
  | nil => cases b <;> simp [dotl]
  | cons x xs ih =>
    cases b with
    | nil => simp [dotl]
    | cons y ys => simp only [dotl, ih]; ring

/-- Cauchy–Schwarz for the loop sums. -/
lemma dotl_cauchy (a b : List ℝ) : (dotl a b) ^ 2 ≤ dotl a a * dotl b b := by
  induction a generalizing b with
  | nil => cases b <;> simp [dotl]
  | cons x xs ih =>
    cases b with
    | nil => simp only [dotl]; nlinarith [dotl_self_nonneg (x :: xs)]
    | cons y ys =>
      have h1 := ih ys
      have h2 := dotl_self_nonneg xs
      have h3 := dotl_self_nonneg ys
      simp only [dotl]
      have h4 : (2 * x * y * dotl xs ys) ^ 2 ≤
          (x ^ 2 * dotl ys ys + y ^ 2 * dotl xs xs) ^ 2 := by
        nlinarith [sq_nonneg (x ^ 2 * dotl ys ys - y ^ 2 * dotl xs xs),
          mul_nonneg (mul_nonneg (sq_nonneg x) (sq_nonneg y)) (sub_nonneg.mpr h1)]
      have hR : 0 ≤ x ^ 2 * dotl ys ys + y ^ 2 * dotl xs xs := by positivity
      have h5 : 2 * x * y * dotl xs ys ≤ x ^ 2 * dotl ys ys + y ^ 2 * dotl xs xs := by
        nlinarith [h4, hR]
      nlinarith [h1, h5]

/-- C8 — confirmed.  For equal-length real vectors (the loop reads
`b[i]` for every index of `a`, so equal length is the domain on which the
code is meaningful), cosine similarity is symmetric, lies in `[-1, 1]`,
and is exactly 0 whenever either vector has zero magnitude. -/
theorem cosineSimilarity_props (a b : List ℝ) (hlen : a.length = b.length) :
    cosineSimilarity a b = cosineSimilarity b a ∧
      -1 ≤ cosineSimilarity a b ∧ cosineSimilarity a b ≤ 1 ∧
      ((dotl a a = 0 ∨ dotl b b = 0) → cosineSimilarity a b = 0) := by
  have ha := dotl_self_nonneg a
  have hb := dotl_self_nonneg b
  refine ⟨?_, ?_, ?_, ?_⟩
  · rw [cosineSimilarity, cosineSimilarity, dotl_comm a b,
      mul_comm (Real.sqrt (dotl a a)) (Real.sqrt (dotl b b))]
  · rw [cosineSimilarity]
    split_ifs with hm
    · norm_num
    · have hpos : 0 < Real.sqrt (dotl a a) * Real.sqrt (dotl b b) :=
        lt_of_le_of_ne (mul_nonneg (Real.sqrt_nonneg _) (Real.sqrt_nonneg _)) (Ne.symm hm)
      have habs : |dotl a b| ≤ Real.sqrt (dotl a a) * Real.sqrt (dotl b b) := by
        have h1 : Real.sqrt ((dotl a b) ^ 2) ≤ Real.sqrt (dotl a a * dotl b b) :=
          Real.sqrt_le_sqrt (dotl_cauchy a b)
        rwa [Real.sqrt_sq_eq_abs, Real.sqrt_mul ha] at h1
      rw [le_div_iff hpos]
      have := (abs_le.mp habs).1
      linarith
  · rw [cosineSimilarity]
    split_ifs with hm
    · norm_num
    · have hpos : 0 < Real.sqrt (dotl a a) * Real.sqrt (dotl b b) :=
        lt_of_le_of_ne (mul_nonneg (Real.sqrt_nonneg _) (Real.sqrt_nonneg _)) (Ne.symm hm)
      have habs : |dotl a b| ≤ Real.sqrt (dotl a a) * Real.sqrt (dotl b b) := by
        have h1 : Real.sqrt ((dotl a b) ^ 2) ≤ Real.sqrt (dotl a a * dotl b b) :=
          Real.sqrt_le_sqrt (dotl_cauchy a b)
        rwa [Real.sqrt_sq_eq_abs, Real.sqrt_mul ha] at h1
      rw [div_le_one hpos]
      exact (abs_le.mp habs).2
  · rintro (h0 | h0) <;> rw [cosineSimilarity] <;> simp [h0, Real.sqrt_zero]

/-- Witness for `cosineSimilarity_props` at two concrete vectors. -/
theorem cosineSimilarity_props_witness :
    ([1, 2] : List ℝ).length = ([3, 4] : List ℝ).length ∧
      cosineSimilarity [1, 2] [3, 4] = cosineSimilarity [3, 4] [1, 2] ∧
      cosineSimilarity [1, 2] [3, 4] ≤ 1 :=
  ⟨rfl, (cosineSimilarity_props [1, 2] [3, 4] rfl).1,
    (cosineSimilarity_props [1, 2] [3, 4] rfl).2.2.1⟩

/-! ## genre-registry.js: normalisation and matching -/

/-- JavaScript's `\w` (a word character), deciding the `\b` boundaries of
the article-stripping regex. -/
def isWordChar (c : Char) : Bool := c.isAlphanum || c = '_'

/-- A `\b` boundary holds in front of this suffix: at the end of the
string or before a non-word character. -/
def boundaryOk : List Char → Bool
  | [] => true
  | c :: _ => !(isWordChar c)

/-- The global replace `\b(the|a|an)\b → ''` as the regex engine runs it:
scan left to right, at each position whose left side is a boundary try
`the`, then `a`, then `an`, each with a right boundary; on a match resume
right after it (`prevW` records whether the character left of the current
position is a word character). -/
def goArt : Bool → List Char → List Char
  | _, [] => []
  | prevW, 't' :: 'h' :: 'e' :: rest =>
    if !prevW && boundaryOk rest then goArt true rest
    else 't' :: goArt true ('h' :: 'e' :: rest)
  | prevW, 'a' :: 'n' :: rest =>
    if !prevW && boundaryOk rest then goArt true rest
    else 'a' :: goArt true ('n' :: rest)
  | prevW, 'a' :: rest =>
    if !prevW && boundaryOk rest then goArt true rest
    else 'a' :: goArt true rest
  | prevW, c :: rest => c :: goArt (isWordChar c) rest

def stripArticles (l : List Char) : List Char := goArt false l

/-- `normalize(text)` (genre-registry.js lines 67–72): lower-case, trim,
strip English articles, collapse whitespace, trim. -/
def normalizeGenre (text : String) : String :=
  String.mk (trimChars (collapseWsChars (stripArticles (trimChars
    (text.toList.map Char.toLower)))))

/-- A registry entry (the fields `findBestMatch` and classification read:
canonical name, optional embedding, aliases). -/
structure GenreEntry where
  name : String
  embedding : Option (List ℝ)
  aliases : List String

structure GenreRegistry where
  genres : List GenreEntry

/-- `GENRE_MATCH_THRESHOLD` (default 0.82). -/
noncomputable def matchThreshold : ℝ := 0.82

/-- `Math.round(x * 100) / 100`. -/
noncomputable def jsRound2 (x : ℝ) : ℝ := (⌊x * 100 + 1 / 2⌋ : ℤ) / 100

/-- What `findBestMatch` resolves a raw term to, generic in the number
type carrying the similarity (the pipeline's numbers; `ℝ` for the real
matcher).  An early return leaves `bestMatch` absent. -/
structure MatchOutcome (α : Type) where
  matched : Option String
  bestMatch : Option String
  similarity : α
  rawGenre : String
deriving DecidableEq, Repr

/-- The embedding-similarity loop of `findBestMatch` (lines 148–158):
entries without an embedding are skipped, strictly greater similarity
updates the best candidate. -/
noncomputable def bestEmbedLoop (emb : List ℝ) (genres : List GenreEntry) :
    Option String × ℝ :=
  genres.foldl
    (fun acc g =>
      match g.embedding with
      | none => acc
      | some ge => if acc.2 < cosineSimilarity emb ge then (some g.name, cosineSimilarity emb ge) else acc)
    (none, 0)

/-- `findBestMatch(rawGenre, registry)` (genre-registry.js lines
117–166), with the embedding service (`getEmbedding`, a network call)
passed in: `none` models a failed embedding request.  Tier 1: exact
name/alias match on normalised text (similarity 1.0).  Tier 2:
bidirectional substring containment (0.95).  Tier 3: best cosine
similarity, accepted only at or above the threshold, rounded to two
places in the report. -/
noncomputable def findBestMatch (rawGenre : String) (registry : GenreRegistry)
    (getEmbedding : String → Option (List ℝ)) : MatchOutcome ℝ :=
  let normalized := normalizeGenre rawGenre
  if normalized = "" then ⟨none, none, 0, rawGenre⟩
  else
    match registry.genres.find? (fun g =>
        normalizeGenre g.name == normalized ||
          g.aliases.any fun al => normalizeGenre al == normalized) with
    | some g => ⟨some g.name, none, 1, rawGenre⟩
    | none =>
      match registry.genres.find? (fun g =>
          jsIncludes normalized (normalizeGenre g.name) ||
            jsIncludes (normalizeGenre g.name) normalized) with
      | some g => ⟨some g.name, none, 0.95, rawGenre⟩
      | none =>
        match getEmbedding rawGenre with
        | none => ⟨none, none, 0, rawGenre⟩
        | some emb =>
          let best := bestEmbedLoop emb registry.genres
          ⟨if matchThreshold ≤ best.2 then best.1 else none, best.1, jsRound2 best.2, rawGenre⟩

/-! ## "the X" normalises like X -/

lemma isWsC_cases {c : Char} (h : isWsC c = true) :
    c = ' ' ∨ c = '\t' ∨ c = '\r' ∨ c = '\n' := by
  rw [isWsC] at h
  unfold Char.isWhitespace at h
  simp only [Bool.or_eq_true, decide_eq_true_eq] at h
  tauto

lemma dropTrailWs_cons (c : Char) (l : List Char) :
    dropTrailWs (c :: l) =
      match dropTrailWs l with
      | [] => if isWsC c then [] else [c]
      | r => c :: r := rfl

lemma dropTrailWs_append (l m : List Char) :
    dropTrailWs (l ++ m) =
      if dropTrailWs m = [] then dropTrailWs l else l ++ dropTrailWs m := by
  induction l with
  | nil => by_cases h : dropTrailWs m = [] <;> simp [h, dropTrailWs]
  | cons c l' ih =>
    by_cases h : dropTrailWs m = []
    · rw [if_pos h, List.cons_append, dropTrailWs_cons, ih, if_pos h, dropTrailWs_cons]
    · rw [if_neg h, List.cons_append, dropTrailWs_cons, ih, if_neg h, List.cons_append]
      have hne : l' ++ dropTrailWs m ≠ [] := fun habs => h (List.append_eq_nil.mp habs).2
      cases hl : l' ++ dropTrailWs m with
      | nil => exact absurd hl hne
      | cons x xs => rfl

lemma goArt_ws_pre (w rest : List Char) (hw : ∀ c ∈ w, isWsC c = true) :
    goArt false (w ++ rest) = w ++ goArt false rest := by
  induction w with
  | nil => simp
  | cons c w' ih =>
    have hc := hw c (by simp)
    have hih := ih fun x hx => hw x (by simp [hx])
    rcases isWsC_cases hc with rfl | rfl | rfl | rfl <;>
      simpa [goArt, isWordChar] using hih

lemma collapseGo_true_ws_pre (w rest : List Char) (hw : ∀ c ∈ w, isWsC c = true) :
    collapseGo true (w ++ rest) = collapseGo true rest := by
  induction w with
  | nil => simp
  | cons c w' ih =>
    have hc := hw c (by simp)
    have hih := ih fun x hx => hw x (by simp [hx])
    simpa [collapseGo, hc] using hih

lemma trimChars_space_cons (l : List Char) : trimChars (' ' :: l) = trimChars l := by
  rw [trimChars, trimChars, dropTrailWs_cons]
  cases h : dropTrailWs l with
  | nil => simp [dropLeadWs, isWsC]
  | cons x xs => simp [dropLeadWs, isWsC]

lemma trimChars_collapse_state (l : List Char) :
    trimChars (collapseGo false l) = trimChars (collapseGo true l) := by
  cases l with
  | nil => rfl
  | cons c rest =>
    by_cases hc : isWsC c = true
    · rw [collapseGo, collapseGo, if_pos hc, if_pos hc, if_neg (by simp)]
      exact trimChars_space_cons _
    · rw [collapseGo, collapseGo, if_neg hc, if_neg hc]

/-- Prefixing a term with the article `the` does not change its
normalisation. -/
lemma normalizeGenre_the (X : String) :
    normalizeGenre ("the " ++ X) = normalizeGenre X := by
  have hsplit : ("the " ++ X).toList.map Char.toLower =
      ['t', 'h', 'e', ' '] ++ X.toList.map Char.toLower := rfl
  rw [normalizeGenre, normalizeGenre, hsplit]
  set L := X.toList.map Char.toLower with hL
  by_cases hB : dropTrailWs L = []
  · have h1 : trimChars (['t', 'h', 'e', ' '] ++ L) = ['t', 'h', 'e'] := by
      rw [trimChars, dropTrailWs_append, if_pos hB]
      rfl
    have h2 : trimChars L = [] := by
      rw [trimChars, hB]
      rfl
    rw [h1, h2]
    rfl
  · have h1 : trimChars (['t', 'h', 'e', ' '] ++ L) =
        't' :: 'h' :: 'e' :: ' ' :: dropTrailWs L := by
      rw [trimChars, dropTrailWs_append, if_neg hB]
      rfl
    have hTL : trimChars L = dropLeadWs (dropTrailWs L) := rfl
    set B := dropTrailWs L with hBdef
    have hstrip1 : stripArticles ('t' :: 'h' :: 'e' :: ' ' :: B) = ' ' :: goArt false B := rfl
    have hBsplit : B = B.takeWhile isWsC ++ B.dropWhile isWsC :=
      (List.takeWhile_append_dropWhile _ _).symm
    have hstrip2 : goArt false B =
        B.takeWhile isWsC ++ goArt false (B.dropWhile isWsC) := by
      conv_lhs => rw [hBsplit]
      exact goArt_ws_pre _ _ fun c hc => List.mem_takeWhile_imp hc
    have hstrip3 : stripArticles (dropLeadWs B) = goArt false (B.dropWhile isWsC) := rfl
    have hcol1 : collapseWsChars
        (' ' :: (B.takeWhile isWsC ++ goArt false (B.dropWhile isWsC))) =
        ' ' :: collapseGo true (goArt false (B.dropWhile isWsC)) := by
      rw [show collapseWsChars
          (' ' :: (B.takeWhile isWsC ++ goArt false (B.dropWhile isWsC))) =
          ' ' :: collapseGo true (B.takeWhile isWsC ++ goArt false (B.dropWhile isWsC))
        from rfl]
      rw [collapseGo_true_ws_pre _ _ fun c hc => List.mem_takeWhile_imp hc]
    rw [h1, hTL, hstrip1, hstrip2, hstrip3, hcol1, trimChars_space_cons]
    rw [show collapseWsChars (goArt false (B.dropWhile isWsC)) =
        collapseGo false (goArt false (B.dropWhile isWsC)) from rfl]
    rw [trimChars_collapse_state]

/-! ## C7: article-stripped exact matching -/

/-- The exact-tier predicate of `findBestMatch` (lines 122–129) against a
normalised query. -/
def exactTierPred (normalized : String) (g : GenreEntry) : Bool :=
  normalizeGenre g.name == normalized || g.aliases.any fun al => normalizeGenre al == normalized

/-- C7 — amended.  For a registry containing an entry whose canonical
name is `X`, provided `X` does not normalise to the empty string,
`findBestMatch("the X")` hits the exact-match tier with similarity
exactly 1.0; the match returned is the canonical name of the *first*
entry whose normalised name or alias equals the normalised `X` (the
entry named `X` itself whenever no earlier entry collides). -/
theorem findBestMatch_article (X : String) (reg : GenreRegistry)
    (getEmb : String → Option (List ℝ)) (hX : normalizeGenre X ≠ "")
    (hmem : X ∈ reg.genres.map GenreEntry.name) :
    (findBestMatch ("the " ++ X) reg getEmb).similarity = 1 ∧
      ∃ g, reg.genres.find? (exactTierPred (normalizeGenre X)) = some g ∧
        g ∈ reg.genres ∧
        (findBestMatch ("the " ++ X) reg getEmb).matched = some g.name := by
  obtain ⟨gx, hgx, hgxname⟩ := List.mem_map.mp hmem
  have hsome : (reg.genres.find? (exactTierPred (normalizeGenre X))).isSome := by
    rw [List.find?_isSome]
    exact ⟨gx, hgx, by simp [exactTierPred, hgxname]⟩
  obtain ⟨g, hg⟩ := Option.isSome_iff_exists.mp hsome
  have hres : findBestMatch ("the " ++ X) reg getEmb =
      ⟨some g.name, none, 1, "the " ++ X⟩ := by
    rw [findBestMatch]
    simp only [normalizeGenre_the]
    rw [if_neg hX]
    rw [show (fun (g : GenreEntry) =>
        normalizeGenre g.name == normalizeGenre X ||
          g.aliases.any fun al => normalizeGenre al == normalizeGenre X) =
        exactTierPred (normalizeGenre X) from rfl]
    rw [hg]
  exact ⟨by rw [hres], g, hg, List.mem_of_find?_eq_some hg, by rw [hres]⟩

/-- Concrete registry for the C7 witness. -/
def regCrime : GenreRegistry := ⟨[⟨"Crime", none, []⟩]⟩

/-- No-embedding boundary (every request fails). -/
def embNone : String → Option (List ℝ) := fun _ => none

theorem findBestMatch_article_witness :
    (findBestMatch ("the " ++ "Crime") regCrime embNone).similarity = 1 :=
  (findBestMatch_article "Crime" regCrime embNone (by decide) (by decide)).1

/-- Registry whose single entry is named `"a"` — its name normalises to
the empty string. -/
def regArticleCex : GenreRegistry := ⟨[⟨"a", none, []⟩]⟩

/-- C7 — counterexample.  With an entry named `"a"`, the query
`"the a"` normalises to the empty string, so `findBestMatch` returns
early with no match at all — not `match = "a"` with similarity 1.0 as
the claim requires for every registry entry `X`. -/
theorem findBestMatch_article_cex :
    (findBestMatch "the a" regArticleCex embNone).matched = none ∧
      ¬((findBestMatch "the a" regArticleCex embNone).matched = some "a" ∧
        (findBestMatch "the a" regArticleCex embNone).similarity = 1) := by
  have h : (findBestMatch "the a" regArticleCex embNone).matched = none := by
    rw [findBestMatch]
    rw [if_pos (by decide)]
  exact ⟨h, fun hc => by rw [h] at hc; exact Option.noConfusion hc.1⟩

/-! ## genre-registry.js: batch classification -/

/-- `[,;]` — the genre-list delimiters. -/
def isGenreDelim (c : Char) : Bool := c = ',' || c = ';'

/-- `split(/[,;]+/)`: pieces between maximal delimiter runs, empty edge
pieces included (`inD` marks that the previous character was a
delimiter, so further delimiters extend the same run). -/
def splitRunsGo (inD : Bool) (acc : List Char) : List Char → List (List Char)
  | [] => [acc.reverse]
  | c :: rest =>
    if isGenreDelim c then
      if inD then splitRunsGo true [] rest
      else acc.reverse :: splitRunsGo true [] rest
    else splitRunsGo false (c :: acc) rest

/-- `genresRaw.split(/[,;]+/).map(trim).filter(length > 1)`
(genre-registry.js lines 176–178). -/
def splitRawGenres (genresRaw : String) : List String :=
  ((splitRunsGo false [] genresRaw.toList).map fun p => String.mk (trimChars p)).filter
    fun g => 1 < g.length

/-- The generic stopword list (line 180). -/
def skipTerms : List String :=
  ["fiction", "nonfiction", "non-fiction", "books", "novels", "literature"]

/-- An entry of the unmatched/review list (lines 192–196). -/
structure UnmatchedEntry (α : Type) where
  raw : String
  bestMatch : String
  similarity : α
deriving DecidableEq, Repr

/-- The `{ genres, unmatched }` result of batch classification. -/
structure ClassifyResult (α : Type) where
  genres : List String
  unmatched : List (UnmatchedEntry α)
deriving DecidableEq, Repr

/-- One loop iteration of `classifyGenresWithEmbeddings` (lines
183–198) on the state (seen set, accepted genres, unmatched list); the
per-term matcher (`findBestMatch`, an awaited call) is the parameter
`matchFn`. -/
def classifyStep {α : Type} (matchFn : String → MatchOutcome α)
    (st : List String × List String × List (UnmatchedEntry α)) (raw : String) :
    List String × List String × List (UnmatchedEntry α) :=
  if skipTerms.contains (normalizeGenre raw) then st
  else
    match (matchFn raw).matched with
    | some m => if st.1.contains m then st else (st.1 ++ [m], st.2.1 ++ [m], st.2.2)
    | none =>
      match (matchFn raw).bestMatch with
      | some b => (st.1, st.2.1, st.2.2 ++ [⟨raw, b, (matchFn raw).similarity⟩])
      | none => st

def classifyCore {α : Type} (matchFn : String → MatchOutcome α) (raws : List String) :
    List String × List String × List (UnmatchedEntry α) :=
  raws.foldl (classifyStep matchFn) ([], [], [])

/-- Stable insertion into a sorted list: the new element goes in front
of the first element it compares `le` to, so earlier input elements stay
in front of equal later ones. -/
def insertLe {α : Type} (le : α → α → Bool) (x : α) : List α → List α
  | [] => [x]
  | y :: ys => if le x y then x :: y :: ys else y :: insertLe le x ys

/-- `Array.prototype.sort(cmp)` for a consistent comparator, modelled as
a stable sort (ECMAScript guarantees stability; any stable sort agrees
with it element for element). -/
def jsSort {α : Type} (le : α → α → Bool) : List α → List α
  | [] => []
  | x :: xs => insertLe le x (jsSort le xs)

/-- The anti-spam cap (lines 200–205): when more than 5 terms are
unmatched, sort ascending by similarity (`(a, b) => a.similarity -
b.similarity`) and truncate to the first 5 (`unmatched.length = 5`). -/
def capUnmatched {α : Type} [LinearOrder α] (unmatched : List (UnmatchedEntry α)) :
    List (UnmatchedEntry α) :=
  if 5 < unmatched.length then
    (jsSort (fun x y => decide (x.similarity ≤ y.similarity)) unmatched).take 5
  else unmatched

/-- `classifyGenresWithEmbeddings(genresRaw, registry)` (lines 172–208),
with the per-term matcher injected. -/
def classifyGenresWithEmbeddings {α : Type} [LinearOrder α] (genresRaw : String)
    (matchFn : String → MatchOutcome α) : ClassifyResult α :=
  let st := classifyCore matchFn (splitRawGenres genresRaw)
  ⟨st.2.1, capUnmatched st.2.2⟩

/-! ## C2: the unmatched cap keeps the wrong five -/

lemma capUnmatched_le_five {α : Type} [LinearOrder α] (u : List (UnmatchedEntry α)) :
    (capUnmatched u).length ≤ 5 := by
  rw [capUnmatched]
  split_ifs with h
  · exact List.length_take_le _ _
  · omega

/-- The six-term input for the cap counterexample. -/
def cexGenresRaw : String := "g1, g2, g3, g4, g5, g6"

/-- A matcher resolving six terms, none accepted, with distinct
similarities; `g2` is the most similar candidate. -/
def cexMatcher : String → MatchOutcome Nat := fun raw =>
  if raw = "g1" then ⟨none, some "Fantasy", 40, raw⟩
  else if raw = "g2" then ⟨none, some "Crime", 80, raw⟩
  else if raw = "g3" then ⟨none, some "Horror", 28, raw⟩
  else if raw = "g4" then ⟨none, some "Romance", 50, raw⟩
  else if raw = "g5" then ⟨none, some "Thriller", 60, raw⟩
  else if raw = "g6" then ⟨none, some "Poetry", 32, raw⟩
  else ⟨none, none, 0, raw⟩

/-- C2 — the cap itself holds (never more than 5 unmatched entries), but
the five retained are the *least* similar: on six unmatched candidates
with similarities 40, 80, 28, 50, 60, 32, the list after the cap is
[28, 32, 40, 50, 60] — the most similar candidate (`g2`, similarity 80,
which was in the pre-cap unmatched list) is the one evicted, the
opposite of the claimed least-similar-first eviction.  (The code's own
log line says "keeping top 5".) -/
theorem classify_cap_keeps_least_similar :
    (∀ (α : Type) (inst : LinearOrder α) (genresRaw : String)
        (matchFn : String → MatchOutcome α),
      (@classifyGenresWithEmbeddings α inst genresRaw matchFn).unmatched.length ≤ 5) ∧
      (classifyGenresWithEmbeddings cexGenresRaw cexMatcher).unmatched.map
          (fun e => e.similarity) = [28, 32, 40, 50, 60] ∧
      (∀ e ∈ (classifyGenresWithEmbeddings cexGenresRaw cexMatcher).unmatched,
        e.similarity < 80) ∧
      (⟨"g2", "Crime", 80⟩ : UnmatchedEntry Nat) ∈
        (classifyCore cexMatcher (splitRawGenres cexGenresRaw)).2.2 := by
  refine ⟨fun α inst genresRaw matchFn => capUnmatched_le_five _, by decide, by decide, by decide⟩

/-! ## C9: a term without match and without best candidate vanishes -/

lemma classifyStep_noop {α : Type} (matchFn : String → MatchOutcome α)
    (st : List String × List String × List (UnmatchedEntry α)) (t : String)
    (hm : (matchFn t).matched = none) (hb : (matchFn t).bestMatch = none) :
    classifyStep matchFn st t = st := by
  rw [classifyStep]
  split_ifs with h
  · rfl
  · rw [hm, hb]

lemma classifyCore_foldl_filter {α : Type} (matchFn : String → MatchOutcome α) (t : String)
    (hm : (matchFn t).matched = none) (hb : (matchFn t).bestMatch = none) :
    ∀ (raws : List String) (st : List String × List String × List (UnmatchedEntry α)),
      (raws.filter fun r => r ≠ t).foldl (classifyStep matchFn) st =
        raws.foldl (classifyStep matchFn) st := by
  intro raws
  induction raws with
  | nil => intro st; rfl
  | cons r rest ih =>
    intro st
    by_cases hr : r = t
    · subst hr
      rw [List.filter_cons_of_neg (by simp), List.foldl_cons,
        classifyStep_noop matchFn st r hm hb]
      exact ih st
    · rw [List.filter_cons_of_pos (by simp [hr]), List.foldl_cons, List.foldl_cons]
      exact ih _

lemma mem_insertLe {α : Type} (le : α → α → Bool) (x y : α) (l : List α)
    (h : x ∈ insertLe le y l) : x = y ∨ x ∈ l := by
  induction l with
  | nil => simpa [insertLe] using h
  | cons z zs ih =>
    rw [insertLe] at h
    split_ifs at h with hc
    · simpa using h
    · rcases List.mem_cons.mp h with rfl | h2
      · simp
      · rcases ih h2 with h3 | h3 <;> simp [h3]

lemma mem_jsSort {α : Type} (le : α → α → Bool) (x : α) (l : List α)
    (h : x ∈ jsSort le l) : x ∈ l := by
  induction l with
  | nil => simpa [jsSort] using h
  | cons z zs ih =>
    rw [jsSort] at h
    rcases mem_insertLe le x z _ h with rfl | h2
    · simp
    · simp [ih h2]

lemma mem_capUnmatched {α : Type} [LinearOrder α] (u : List (UnmatchedEntry α))
    (e : UnmatchedEntry α) (h : e ∈ capUnmatched u) : e ∈ u := by
  rw [capUnmatched] at h
  split_ifs at h with hc
  · exact mem_jsSort _ _ _ (List.mem_of_mem_take h)
  · exact h

lemma classifyCore_unmatched_raw_ne {α : Type} (matchFn : String → MatchOutcome α)
    (t : String) (hb : (matchFn t).bestMatch = none) :
    ∀ (raws : List String) (st : List String × List String × List (UnmatchedEntry α)),
      (∀ e ∈ st.2.2, e.raw ≠ t) →
        ∀ e ∈ (raws.foldl (classifyStep matchFn) st).2.2, e.raw ≠ t := by
  intro raws
  induction raws with
  | nil => intro st hst; exact hst
  | cons r rest ih =>
    intro st hst
    rw [List.foldl_cons]
    refine ih _ ?_
    rw [classifyStep]
    split_ifs with h
    · exact hst
    · cases hmr : (matchFn r).matched with
      | some m =>
        dsimp only
        split_ifs <;> exact hst
      | none =>
        dsimp only
        cases hbr : (matchFn r).bestMatch with
        | none => exact hst
        | some b =>
          dsimp only
          intro e he
          rcases List.mem_append.mp he with h2 | h2
          · exact hst e h2
          · have he2 : e = ⟨r, b, (matchFn r).similarity⟩ := by simpa using h2
            rw [he2]
            intro habs
            have hrt : r = t := habs
            rw [hrt, hb] at hbr
            exact Option.noConfusion hbr

/-- C9 — confirmed.  A raw term that survives the length and stopword
filters but whose matcher outcome carries neither a match nor a best
candidate (the embedding-failure early return of `findBestMatch`, lines
139–146) contributes nothing: classification of any term list equals
classification with that term removed, and no unmatched/review entry
ever names it. -/
theorem classify_drops_unembeddable {α : Type} [inst : LinearOrder α]
    (matchFn : String → MatchOutcome α) (t : String)
    (hm : (matchFn t).matched = none) (hb : (matchFn t).bestMatch = none) :
    (∀ raws : List String,
      classifyCore matchFn (raws.filter fun r => r ≠ t) = classifyCore matchFn raws) ∧
      (∀ genresRaw : String,
        ∀ e ∈ (classifyGenresWithEmbeddings genresRaw matchFn).unmatched, e.raw ≠ t) := by
  constructor
  · intro raws
    rw [classifyCore, classifyCore]
    exact classifyCore_foldl_filter matchFn t hm hb raws _
  · intro genresRaw e he
    have hcore : e ∈ (classifyCore matchFn (splitRawGenres genresRaw)).2.2 :=
      mem_capUnmatched _ _ he
    exact classifyCore_unmatched_raw_ne matchFn t hb (splitRawGenres genresRaw) _
      (by intro e2 he2; simp at he2) e hcore

/-- A matcher with one resolvable term; every other term (in particular
`"ghost"`) fails with neither match nor best candidate. -/
def ghostMatcher : String → MatchOutcome Nat := fun raw =>
  if raw = "ok" then ⟨some "Crime", none, 100, raw⟩ else ⟨none, none, 0, raw⟩

/-- Witness for `classify_drops_unembeddable` at a concrete matcher. -/
theorem classify_drops_unembeddable_witness :
    classifyCore ghostMatcher (["ok", "ghost"].filter fun r => r ≠ "ghost") =
      classifyCore ghostMatcher ["ok", "ghost"] :=
  (classify_drops_unembeddable ghostMatcher "ghost" (by decide) (by decide)).1 ["ok", "ghost"]

/-! ## crawler.js: candidate filtering and the overflow warning -/

def MAX_AGENT_LINKS : Nat := 25

/-- The non-page resource extensions dropped by `filterAgentLinks`
(crawler.js line 151). -/
def dropExtensions : List String :=
  [".pdf", ".jpg", ".png", ".gif", ".doc", ".docx", ".xml", ".txt", ".css",
   ".js", ".json", ".svg", ".ico"]

/-- The boilerplate path segments dropped (line 154). -/
def boilerplateSegments : List String :=
  ["/impressum", "/datenschutz", "/privacy", "/legal", "/agb", "/terms",
   "/cookie", "/disclaimer", "/haftung"]

/-- The cleaning predicate of `filterAgentLinks` (lines 150–158): both
regexes are case-insensitive, the first anchored at the end, the second
a substring test. -/
def technicalFilterOk (link : String) : Bool :=
  !(dropExtensions.any fun e => jsEnds (jsLower link) e) &&
    !(boilerplateSegments.any fun p => jsIncludes (jsLower link) p)

/-- `[...new Set(list)]`: first occurrence kept, order preserved. -/
def jsDedup (seen : List String) : List String → List String
  | [] => []
  | x :: rest => if seen.contains x then jsDedup seen rest else x :: jsDedup (x :: seen) rest

/-- `filterAgentLinks(links, baseUrl)` (crawler.js lines 149–165), with
the LLM prioritisation call (`prioritizeUrlsWithLLM`) passed in: clean,
de-duplicate, prioritise, then `slice(0, MAX_AGENT_LINKS)`. -/
def filterAgentLinks (links : List String) (prioritize : List String → List String) :
    List String :=
  (prioritize (jsDedup [] (links.filter technicalFilterOk))).take MAX_AGENT_LINKS

/-- The warning object the safety check at crawler.js lines 219–230
would build from `agentLinks`, `none` when the guard
`agentLinks.length > MAX_AGENT_LINKS` does not fire. -/
structure CrawlWarning where
  foundLinks : Nat
  limit : Nat
  sampleUrls : List String
deriving DecidableEq, Repr

def crawlWarningOf (agentLinks : List String) : Option CrawlWarning :=
  if MAX_AGENT_LINKS < agentLinks.length then
    some ⟨agentLinks.length, MAX_AGENT_LINKS, agentLinks.take 10⟩
  else none

/-- Forty distinct candidate URLs that survive the technical filter. -/
def urls40 : List String := ["https://agency.test/page00", "https://agency.test/page01", "https://agency.test/page02", "https://agency.test/page03", "https://agency.test/page04", "https://agency.test/page05", "https://agency.test/page06", "https://agency.test/page07", "https://agency.test/page08", "https://agency.test/page09", "https://agency.test/page10", "https://agency.test/page11", "https://agency.test/page12", "https://agency.test/page13", "https://agency.test/page14", "https://agency.test/page15", "https://agency.test/page16", "https://agency.test/page17", "https://agency.test/page18", "https://agency.test/page19", "https://agency.test/page20", "https://agency.test/page21", "https://agency.test/page22", "https://agency.test/page23", "https://agency.test/page24", "https://agency.test/page25", "https://agency.test/page26", "https://agency.test/page27", "https://agency.test/page28", "https://agency.test/page29", "https://agency.test/page30", "https://agency.test/page31", "https://agency.test/page32", "https://agency.test/page33", "https://agency.test/page34", "https://agency.test/page35", "https://agency.test/page36", "https://agency.test/page37", "https://agency.test/page38", "https://agency.test/page39"]

/-- C1 — the overflow warning is dead code: `filterAgentLinks` already
truncates to `MAX_AGENT_LINKS`, so for every link list and every
prioritisation outcome the guard `agentLinks.length > MAX_AGENT_LINKS`
in `crawlForAgents` is false and no warning object is ever built; with
40 candidates the crawl silently proceeds on the 25 retained. -/
theorem crawl_overflow_warning_unreachable :
    (∀ (links : List String) (prioritize : List String → List String),
      (filterAgentLinks links prioritize).length ≤ MAX_AGENT_LINKS ∧
        crawlWarningOf (filterAgentLinks links prioritize) = none) ∧
      (jsDedup [] (urls40.filter technicalFilterOk)).length = 40 ∧
      (filterAgentLinks urls40 id).length = 25 := by
  refine ⟨fun links prioritize => ?_, by decide, by decide⟩
  have hlen : (filterAgentLinks links prioritize).length ≤ MAX_AGENT_LINKS :=
    List.length_take_le _ _
  exact ⟨hlen, by rw [crawlWarningOf, if_neg (by omega)]⟩

/-! ## ollama.js: phase-1 extraction, JSON repair, and the error sentinel

The LLM call and `JSON.parse` are supplied as parameters (`resp` is the
model's raw response, `parse` the JSON parser, which returns the thrown
message on failure); the phase-2 classification outcomes are likewise
parameters. Everything else is translated from the source. -/

/-- The left and right curly-brace characters. -/
def lbraceC : Char := Char.ofNat 123

def rbraceC : Char := Char.ofNat 125

/-- The double-quote character. -/
def quoteC : Char := Char.ofNat 34

def usC : Char := '_'

/-- The fiction genre list, GENRE_CATEGORIES.fiction (ollama.js lines 8-23). -/
def fictionCategories : List String :=
  ["Action/Adventure", "BIPOC Crime Fiction", "BIPOC Literature", "BIPOC Mystery",
   "BIPOC Thriller", "Bookclub", "Caribbean Literature", "Children's",
   "Commercial", "Contemporary", "Crime", "CyberPunk",
   "Domestic Thriller", "East Asian Literature", "Eco-Fiction", "Erotica",
   "Family Saga", "Fantasy", "Folklore", "General",
   "Gothic", "Graphic Novel", "Historical", "Horror",
   "Humor", "LGBTQ", "Literary", "Magical Realism",
   "Middle Grade", "Military", "Mystery", "Neo-Western",
   "New Adult", "Picture Books", "Poetry", "Psychological Thriller",
   "Religious", "Romance", "Romcom", "Science Fiction",
   "Short Story", "South Asian Literature", "South East Asian Literature",
   "Speculative", "Speculative Literary", "Sports", "Steampunk",
   "Thriller", "Upmarket", "West African Literature", "Western",
   "Women's Fiction", "Young Adult"]

/-- The nonfiction genre list, GENRE_CATEGORIES.nonfiction (lines 24-33). -/
def nonfictionCategories : List String :=
  ["Art", "Bible Studies", "Biography", "Business",
   "Cookbooks", "Crafts/DIY", "Cultural criticism", "Current Events",
   "Fashion", "Feminism and women's issues", "Fitness", "Health",
   "History", "Humor", "Illustrated", "Journalism",
   "LGBTQ", "Memoir", "Parenting", "Pop Culture",
   "Psychology", "Relationships and family", "Science", "Self-help",
   "Spiritual", "Sports", "Tarot/Astrology", "Travel",
   "True Crime", "Wellness", "Witches/Witchcraft"]

def firstIdxOf (c : Char) (l : List Char) : Option Nat := l.findIdx? (· = c)

def lastIdxOf (c : Char) (l : List Char) : Option Nat :=
  (l.reverse.findIdx? (· = c)).map (fun k => l.length - 1 - k)

/-- `result.match(/{[\s\S]*}/)` (ollama.js line 129): the span from the
first left brace to the last right brace, `none` when the regex does
not match (i.e. no left brace with a right brace after it). -/
def jsonSpan (s : String) : Option String :=
  let cs := s.toList
  match firstIdxOf lbraceC cs, lastIdxOf rbraceC cs with
  | some i, some j =>
    if i < j then some (String.mk ((cs.drop i).take (j - i + 1))) else none
  | _, _ => none

def rawArrayKeys : List String := ["genres_raw", "hard_nos_raw", "audience_raw"]

/-- Try to read one of the quoted raw-field key names at the head of `l`;
on success return the key and the remaining input. -/
def tryRawKey (l : List Char) : Option (String × List Char) :=
  rawArrayKeys.foldr
    (fun key acc =>
      let pat := quoteC :: key.toList ++ [quoteC]
      if pat.isPrefixOf l then some (key, l.drop pat.length) else acc)
    none

/-- The replacement callback (ollama.js lines 141-142): strip the double
quotes from the bracketed items, trim, turn newlines into spaces, and
emit the key with the flattened string value. -/
def rawFieldRepl (key : String) (items : List Char) : List Char :=
  let flat := (trimChars (items.filter (fun c => c ≠ quoteC))).map
    (fun c => if c = '\n' then ' ' else c)
  quoteC :: key.toList ++ [quoteC] ++ (": ".toList) ++ [quoteC] ++ flat ++ [quoteC]

/-- Attempt, at the head of `l`, a match of the repair regex
`"(genres_raw|hard_nos_raw|audience_raw)"\s*:\s*\[[^\]]*\]`; on success
return the replacement text and the input after the match. -/
def tryRawArrayAt (l : List Char) : Option (List Char × List Char) :=
  match tryRawKey l with
  | none => none
  | some (key, l1) =>
    match l1.dropWhile isWsC with
    | ':' :: l3 =>
      match l3.dropWhile isWsC with
      | '[' :: l5 =>
        let items := l5.takeWhile (fun c => c ≠ ']')
        match l5.dropWhile (fun c => c ≠ ']') with
        | ']' :: l6 => some (rawFieldRepl key items, l6)
        | _ => none
      | _ => none
    | _ => none

/-- One left-to-right pass of the global array-field replacement
(ollama.js lines 140-143). `fuel` only bounds the recursion for Lean:
it starts at the input length and every step consumes at least one
input character, so it never runs out. -/
def replaceRawArraysGo : Nat → List Char → List Char
  | 0, l => l
  | _ + 1, [] => []
  | fuel + 1, c :: rest =>
    match tryRawArrayAt (c :: rest) with
    | some (out, l6) => out ++ replaceRawArraysGo fuel l6
    | none => c :: replaceRawArraysGo fuel rest

/-- The global replacement `/,\s*}/g` by a bare right brace
(ollama.js line 144), with the same fuel convention. -/
def stripCommaBraceGo : Nat → List Char → List Char
  | 0, l => l
  | _ + 1, [] => []
  | fuel + 1, c :: rest =>
    if c = ',' then
      match rest.dropWhile isWsC with
      | r :: l2 =>
        if r = rbraceC then rbraceC :: stripCommaBraceGo fuel l2
        else c :: stripCommaBraceGo fuel rest
      | [] => c :: stripCommaBraceGo fuel rest
    else c :: stripCommaBraceGo fuel rest

/-- The one-shot JSON repair applied between the two parse attempts
(ollama.js lines 139-144). -/
def fixJson (s : String) : String :=
  let pass1 := replaceRawArraysGo s.toList.length s.toList
  String.mk (stripCommaBraceGo pass1.length pass1)

/-- JavaScript truthiness of an embedded value: the empty string, false
and null are falsy; arrays are always truthy. -/
def vTruthy : JVal → Bool
  | .vstr s => !(s == "")
  | .vbool b => b
  | .vnull => false
  | .varr _ => true

/-- The assignment `obj[k] = v` on a record: overwrite in place when the
key exists (keeping its position), otherwise append. -/
def jsSetKey (r : JRec) (k : String) (v : JVal) : JRec :=
  if (r.lookup k).isSome then r.map (fun p => if p.1 == k then (p.1, v) else p)
  else r ++ [(k, v)]

/-- `Array.prototype.join(sep)`. -/
def joinSep (sep : String) : List String → String
  | [] => ""
  | x :: rest => rest.foldl (fun acc y => acc ++ sep ++ y) x

/-- Normalise one raw field (ollama.js lines 153-158): an array value is
joined with a comma and space, then any falsy value is replaced by the
empty string. -/
def fixRawField (r : JRec) (f : String) : JRec :=
  let r1 := match r.lookup f with
    | some (.varr l) => jsSetKey r f (.vstr (joinSep ", " l))
    | _ => r
  match r1.lookup f with
  | some v => if vTruthy v then r1 else jsSetKey r1 f (.vstr "")
  | none => jsSetKey r1 f (.vstr "")

def fixRawFields (r : JRec) : JRec := rawArrayKeys.foldl fixRawField r

/-- Phase 1, `extractAgentInfo` (ollama.js lines 129-167), from the raw
LLM response: locate the JSON span, parse it, on failure repair once
and re-parse, then normalise the three raw fields. The error strings
are the exact thrown messages. -/
def extractAgentInfoCore (resp : String) (parse : String → Except String JRec) :
    Except String JRec :=
  match jsonSpan resp with
  | none => .error "Phase 1: No JSON found in LLM response"
  | some span =>
    match parse span with
    | .ok data => .ok (fixRawFields data)
    | .error parseErr =>
      match parse (fixJson span) with
      | .ok data => .ok (fixRawFields data)
      | .error _ => .error ("Phase 1: Failed to parse LLM JSON: " ++ parseErr)

def isLowerDigit (c : Char) : Bool :=
  ('a' ≤ c && c ≤ 'z') || ('0' ≤ c && c ≤ '9')

/-- `replace(/[^a-z0-9]+/g, underscore)` on a lower-cased key. -/
def underscoreRuns : Bool → List Char → List Char
  | _, [] => []
  | inRun, c :: rest =>
    if isLowerDigit c then c :: underscoreRuns false rest
    else if inRun then underscoreRuns true rest
    else usC :: underscoreRuns true rest

/-- `replace(/_+/g, single underscore)`. -/
def collapseUnderscores : Bool → List Char → List Char
  | _, [] => []
  | prevU, c :: rest =>
    if c = usC then
      if prevU then collapseUnderscores true rest
      else usC :: collapseUnderscores true rest
    else c :: collapseUnderscores false rest

/-- `replace(/^_|_$/g, empty)`: drop one leading and one trailing
underscore. -/
def stripEdgeUnderscore (l : List Char) : List Char :=
  let l1 := match l with
    | c :: rest => if c = usC then rest else l
    | [] => []
  match l1.reverse with
  | c :: rest => if c = usC then rest.reverse else l1
  | [] => l1

/-- The genre-to-column-key sanitisation (ollama.js lines 364-367). -/
def sanitizeKey (genre : String) : String :=
  String.mk (stripEdgeUnderscore (collapseUnderscores false
    (underscoreRuns false (genre.toList.map Char.toLower))))

/-- `genreMap[genre] = key` with JS object semantics: reassignment keeps
the original insertion position. -/
def setAssoc (m : List (String × String)) (k v : String) : List (String × String) :=
  if (m.lookup k).isSome then m.map (fun p => if p.1 == k then (p.1, v) else p)
  else m ++ [(k, v)]

/-- The genreMap of `genresToBooleans` (ollama.js lines 360-378):
fiction mappings first, then nonfiction mappings. -/
def genreMapList : List (String × String) :=
  nonfictionCategories.foldl
    (fun m g => setAssoc m g ("genre_nonfiction_" ++ sanitizeKey g))
    (fictionCategories.foldl
      (fun m g => setAssoc m g ("genre_fiction_" ++ sanitizeKey g)) [])

/-- `genresToBooleans` (ollama.js lines 359-396): start every mapped
column at false, then set the columns of the accepted genres true. -/
def genresToBooleans (fiction nonfiction : List String) : JRec :=
  let booleans := (genreMapList.map Prod.snd).foldl
    (fun r key => jsSetKey r key (.vbool false)) []
  (fiction ++ nonfiction).foldl
    (fun r g =>
      match genreMapList.lookup g with
      | some key => jsSetKey r key (.vbool true)
      | none => r)
    booleans

/-- The literal leading fields of the catch-block sentinel
(ollama.js lines 475-487). -/
def errorRecordHead : JRec :=
  [("agent_name", .vstr "Error"), ("agency_name", .vstr "Error"),
   ("country", .vstr "Unknown"), ("website", .vstr ""), ("email", .vstr ""),
   ("is_open_to_submissions", .vbool false), ("requires_bio", .vbool false),
   ("requires_expose", .vbool false), ("requires_manuscript", .vbool false),
   ("audience", .varr [])]

/-- The sentinel record returned by the catch block of
`extractWithOllama` (ollama.js lines 469-488): the literal fields, the
spread of the all-false genre booleans, and the error message. -/
def errorRecord (e : String) : JRec :=
  errorRecordHead ++ genresToBooleans [] [] ++ [("error", .vstr e)]

/-- `info.field || default`. -/
def jvalOr (v : Option JVal) (dflt : JVal) : JVal :=
  match v with
  | some x => if vTruthy x then x else dflt
  | none => dflt

/-- The merged result object of `extractWithOllama` (lines 422-449),
with the phase-2 classification outcomes supplied: `cgF`/`cgN` the
classified fiction/nonfiction genres, `chn` the hard nos, `ca` the
audience. -/
def successRecord (info : JRec) (cgF cgN chn ca : List String) : JRec :=
  let base : JRec :=
    [("agent_name", jvalOr (info.lookup "agent_name") (.vstr "Unknown")),
     ("agent_name_evidence", jvalOr (info.lookup "agent_name_evidence") (.vstr "Not found")),
     ("agency_name", jvalOr (info.lookup "agency_name") (.vstr "Unknown")),
     ("agency_name_evidence", jvalOr (info.lookup "agency_name_evidence") (.vstr "Not found")),
     ("agent_role", jvalOr (info.lookup "agent_role") (.vstr "Unknown")),
     ("contact_email", jvalOr (info.lookup "contact_email") (.vstr "")),
     ("email", jvalOr (info.lookup "contact_email") (.vstr "")),
     ("submission_url", jvalOr (info.lookup "submission_url") (.vstr "")),
     ("is_open_to_submissions", jvalOr (info.lookup "is_open_to_submissions") (.vbool false)),
     ("is_open_to_submissions_evidence",
       jvalOr (info.lookup "is_open_to_submissions_evidence") (.vstr "Not found")),
     ("status_notice", jvalOr (info.lookup "status_notice") (.vstr "")),
     ("estimated_response_time", jvalOr (info.lookup "estimated_response_time") (.vstr "")),
     ("accepted_genres_fiction", .varr cgF),
     ("accepted_genres_nonfiction", .varr cgN),
     ("genres_raw", jvalOr (info.lookup "genres_raw") (.vstr "")),
     ("hard_nos", .varr chn),
     ("hard_nos_raw", jvalOr (info.lookup "hard_nos_raw") (.vstr "")),
     ("audience", .varr ca),
     ("audience_raw", jvalOr (info.lookup "audience_raw") (.vstr "")),
     ("manuscript_wishlist_summary",
       jvalOr (info.lookup "manuscript_wishlist_summary") (.vstr "")),
     ("target_audience", jvalOr (info.lookup "target_audience") (.vstr "")),
     ("specific_keywords", jvalOr (info.lookup "specific_keywords") (.varr [])),
     ("requires_bio", jvalOr (info.lookup "requires_bio") (.vbool false)),
     ("requires_expose", jvalOr (info.lookup "requires_expose") (.vbool false)),
     ("requires_manuscript", jvalOr (info.lookup "requires_manuscript") (.vbool false))]
  (genresToBooleans cgF cgN).foldl (fun r p => jsSetKey r p.1 p.2) base

/-- The knownFields override loop (ollama.js lines 452-458). -/
def applyKnownFields (r : JRec) (kf : JRec) : JRec :=
  kf.foldl
    (fun acc p =>
      if vTruthy p.2 ∧ p.2 ≠ JVal.vstr "Unknown" ∧ p.2 ≠ JVal.vstr "" then
        jsSetKey acc p.1 p.2
      else acc)
    r

/-- `extractWithOllama` (ollama.js lines 406-489): a phase-1 failure is
caught and turned into the sentinel record; otherwise the merged result
is built and the knownFields override applied when present. -/
def extractWithOllamaModel (resp : String) (parse : String → Except String JRec)
    (cgF cgN chn ca : List String) (knownFields : Option JRec) : JRec :=
  match extractAgentInfoCore resp parse with
  | .error e => errorRecord e
  | .ok info =>
    let base := successRecord info cgF cgN chn ca
    match knownFields with
    | some kf => applyKnownFields base kf
    | none => base

set_option maxRecDepth 40000 in
/-- C6 — when phase 1 fails unrecoverably (no JSON span, or parsing
fails after the single repair attempt), `extractWithOllama` does not
propagate the failure but returns the sentinel record: the error field
carries the failure message, agent and agency names are "Error",
country is "Unknown", website and email are empty strings, the four
submission booleans are false, audience is the empty array, and every
genre boolean column is false. -/
theorem extractWithOllama_error_sentinel (resp : String)
    (parse : String → Except String JRec) (cgF cgN chn ca : List String)
    (kf : Option JRec) (e : String)
    (h : extractAgentInfoCore resp parse = .error e) :
    extractWithOllamaModel resp parse cgF cgN chn ca kf = errorRecord e ∧
      (errorRecord e).lookup "error" = some (.vstr e) ∧
      (errorRecord e).lookup "agent_name" = some (.vstr "Error") ∧
      (errorRecord e).lookup "agency_name" = some (.vstr "Error") ∧
      (errorRecord e).lookup "country" = some (.vstr "Unknown") ∧
      (errorRecord e).lookup "website" = some (.vstr "") ∧
      (errorRecord e).lookup "email" = some (.vstr "") ∧
      (errorRecord e).lookup "is_open_to_submissions" = some (.vbool false) ∧
      (errorRecord e).lookup "requires_bio" = some (.vbool false) ∧
      (errorRecord e).lookup "requires_expose" = some (.vbool false) ∧
      (errorRecord e).lookup "requires_manuscript" = some (.vbool false) ∧
      (errorRecord e).lookup "audience" = some (.varr []) ∧
      ∀ k v, (k, v) ∈ errorRecord e → jsStarts k "genre_" = true →
        v = .vbool false := by
  refine ⟨?_, rfl, rfl, rfl, rfl, rfl, rfl, rfl, rfl, rfl, rfl, rfl, ?_⟩
  · unfold extractWithOllamaModel
    rw [h]
  · intro k v hmem hstart
    rcases List.mem_append.mp hmem with h1 | h1
    · rcases List.mem_append.mp h1 with h2 | h2
      · have hfalse : ∀ p ∈ errorRecordHead, jsStarts p.1 "genre_" = false := by
          decide
        have h3 : jsStarts k "genre_" = false := hfalse (k, v) h2
        rw [h3] at hstart
        exact Bool.noConfusion hstart
      · have hall : ∀ p ∈ genresToBooleans [] [], p.2 = JVal.vbool false := by
          decide
        exact hall (k, v) h2
    · have h2 := List.mem_singleton.mp h1
      have hk : k = "error" := (Prod.ext_iff.mp h2).1
      rw [hk] at hstart
      exact absurd hstart (by decide)

/-- The sentinel theorem at a concrete failing input: a response with no
brace at all, so the span match already fails. -/
theorem extractWithOllama_error_sentinel_witness :
    extractWithOllamaModel "no json here" (fun s => Except.error (s ++ " bad"))
      [] [] [] [] none =
      errorRecord "Phase 1: No JSON found in LLM response" :=
  (extractWithOllama_error_sentinel "no json here"
    (fun s => Except.error (s ++ " bad")) [] [] [] [] none
    "Phase 1: No JSON found in LLM response" rfl).1

end AutoQuery
